import Mathlib

/-!
Shallow embedding of the Gaze-Tracking core (gaze_tracking/{calibration,eye,pupil,gaze_tracking}.py).

Conventions of the embedding:
* Machine pixels are `ℕ` intensities; coordinates are `ℤ`; Python floats are
  idealised as `ℚ` (all float arithmetic in the source is ratio arithmetic on
  integer-valued data, except `math.hypot`, see below).
* Fallible Python code is embedded in `Except Err`; a caught exception
  (`try`/`except`) is modelled by the corresponding guard, an uncaught one by
  `.error`.
* OpenCV / dlib primitives (bilateral filter, erosion, binary threshold,
  `fillPoly` rasterisation, `findContours`, `moments`, the landmark predictor)
  are external collaborators: they enter as function parameters
  (`proc`, `insidePoly`, `contoursOf`) or as plain data (`Landmarks`,
  `Contour`), while every line of the repository's own code is translated.
* `math.hypot` computes a float square root; it is embedded as a parameter
  `sqrtQ : ℚ → ℚ` applied to the exact sum of squares, with the facts a claim
  needs about it (`sqrtQ 0 = 0`) taken as hypotheses.
-/

namespace GazeSpec

set_option maxRecDepth 100000

/-- Python runtime faults that the embedded code can raise or catch. -/
inductive Err where
  | zeroDivisionError
  | typeError
  | indexError
deriving DecidableEq, Repr

instance {α : Type} [DecidableEq α] : DecidableEq (Except Err α) := fun a b =>
  match a, b with
  | .ok x, .ok y => if h : x = y then isTrue (by rw [h]) else isFalse (by simp [h])
  | .error x, .error y => if h : x = y then isTrue (by rw [h]) else isFalse (by simp [h])
  | .ok _, .error _ => isFalse (by simp)
  | .error _, .ok _ => isFalse (by simp)

/-- Python `int(q)`: truncation of a (float) value toward zero. -/
def pyTrunc (q : ℚ) : ℤ := if 0 ≤ q then ⌊q⌋ else ⌈q⌉

/-- Resolution of one endpoint of a Python/numpy slice `a[i:j]` on an axis of
length `n`: a negative index counts from the end (clamped below at 0), a
non-negative one is clamped above at `n`. -/
def sliceIdx (n : ℕ) (i : ℤ) : ℕ :=
  if i < 0 then ((n : ℤ) + i).toNat else min i.toNat n

/-- A grayscale image: `pix row col` is the 8-bit intensity (row-major, as in
numpy's `frame[y, x]`). -/
structure Frame where
  h : ℕ
  w : ℕ
  pix : ℕ → ℕ → ℕ

/-- Numpy 2-D slice `f[r0:r1, c0:c1]` with Python index semantics
(negative indices count from the end; empty when the bounds cross). -/
def Frame.slice (f : Frame) (r0 r1 c0 c1 : ℤ) : Frame :=
  let rs := sliceIdx f.h r0
  let re := sliceIdx f.h r1
  let cs := sliceIdx f.w c0
  let ce := sliceIdx f.w c1
  { h := re - rs, w := ce - cs, pix := fun r c => f.pix (rs + r) (cs + c) }

/-- cv2.countNonZero on the embedded frame. -/
def Frame.countNonZero (f : Frame) : ℕ :=
  ((List.range f.h).map (fun r => (List.range f.w).countP (fun c => f.pix r c ≠ 0))).sum

/-! ## Calibration (gaze_tracking/calibration.py) -/

/-- Calibration state: the two per-side lists of collected thresholds
(`thresholds_left`, `thresholds_right` in `Calibration.__init__`). -/
structure Calibration where
  thresholds_left : List ℕ
  thresholds_right : List ℕ
deriving DecidableEq, Repr

/-- The `nb_frames` attribute: number of frames to collect per side. -/
def Calibration.nb_frames : ℕ := 20

/-- Embeds `Calibration.is_complete`. -/
def Calibration.is_complete (s : Calibration) : Bool :=
  Calibration.nb_frames ≤ s.thresholds_left.length &&
    Calibration.nb_frames ≤ s.thresholds_right.length

/-- Embeds `Calibration.threshold(side)`: `int(sum(samples) / len(samples))`
for side 0 or 1, falling through to `None` otherwise.  The samples are
natural numbers, so Python's `int(⌞float division⌟)` (truncation toward zero)
is `Nat` division; an empty sample list makes `len(...) = 0` raise
`ZeroDivisionError`. -/
def Calibration.threshold (s : Calibration) (side : ℤ) : Except Err (Option ℕ) :=
  if side = 0 then
    if s.thresholds_left.length = 0 then .error .zeroDivisionError
    else .ok (some (s.thresholds_left.sum / s.thresholds_left.length))
  else if side = 1 then
    if s.thresholds_right.length = 0 then .error .zeroDivisionError
    else .ok (some (s.thresholds_right.sum / s.thresholds_right.length))
  else .ok none

/-- Embeds `Calibration.iris_size`: crop a 5-pixel border (`frame[5:-5, 5:-5]`),
then return `(total - countNonZero) / total`; raises `ZeroDivisionError` when
the cropped patch is empty. -/
def Calibration.iris_size (f : Frame) : Except Err ℚ :=
  let g := f.slice 5 (-5) 5 (-5)
  let n := g.h * g.w
  if n = 0 then .error .zeroDivisionError
  else .ok (((n : ℚ) - g.countNonZero) / n)

/-- Total variant of the `iris_size` ratio, used to state properties;
`iris_size` returns `.ok` of this value whenever the cropped patch is
non-empty. -/
def Calibration.irisQ (f : Frame) : ℚ :=
  let g := f.slice 5 (-5) 5 (-5)
  let n := g.h * g.w
  ((n : ℚ) - g.countNonZero) / n

/-- The candidate thresholds `range(5, 100, 5)` of `find_best_threshold`. -/
def candidateThresholds : List ℕ := List.range' 5 19 5

/-- The `average_iris_size = 0.48` constant of `find_best_threshold`. -/
def average_iris_size : ℚ := 0.48

/-- Embeds `Calibration.find_best_threshold`, with the external processing
pipeline `Pupil.image_processing` abstracted as `proc` (it is pure OpenCV:
bilateral filter, erosion, binary threshold).  Builds the `trials` association
in ascending candidate order and takes Python's `min` by
`abs(iris_size - 0.48)`, which keeps the first minimiser encountered. -/
def find_best_threshold (proc : Frame → ℕ → Frame) (eye_frame : Frame) :
    Except Err ℕ := do
  let trials ← candidateThresholds.mapM (fun t => do
    let v ← Calibration.iris_size (proc eye_frame t)
    pure (t, v))
  match trials with
  | [] => .error .indexError
  | p :: ps =>
    .ok (ps.foldl (fun best q =>
      if |q.2 - average_iris_size| < |best.2 - average_iris_size| then q else best) p).1

/-- The append performed by `Calibration.evaluate` once the best threshold for
the frame is known (side 0 appends to the left list, side 1 to the right one,
anything else falls through silently). -/
def Calibration.appendSample (s : Calibration) (t : ℕ) (side : ℤ) : Calibration :=
  if side = 0 then { s with thresholds_left := s.thresholds_left ++ [t] }
  else if side = 1 then { s with thresholds_right := s.thresholds_right ++ [t] }
  else s

/-- Embeds `Calibration.evaluate`: run `find_best_threshold` on the frame and
append the result to the side's sample list. -/
def Calibration.evaluate (proc : Frame → ℕ → Frame) (s : Calibration)
    (eye_frame : Frame) (side : ℤ) : Except Err Calibration := do
  let t ← find_best_threshold proc eye_frame
  pure (s.appendSample t side)

/-- The per-frame calibration effect of `GazeTracking._analyze`: each `Eye`
(left first, then right) runs `if not calibration.is_complete():
calibration.evaluate(self.frame, side)` (`Eye._analyze`, eye.py lines
177-183).  `v.1` and `v.2` stand for the best thresholds `find_best_threshold`
produces for the two isolated eye frames of that video frame. -/
def calStep (s : Calibration) (v : ℕ × ℕ) : Calibration :=
  let s1 := if s.is_complete then s else s.appendSample v.1 0
  if s1.is_complete then s1 else s1.appendSample v.2 1

/-- A run of the engine over a sequence of frames, at the calibration level. -/
def calRun (s : Calibration) (vs : List (ℕ × ℕ)) : Calibration :=
  vs.foldl calStep s

/-! ## Pupil (gaze_tracking/pupil.py) -/

/-- A connected contour as cv2.findContours returns it, carrying the data the
repository reads off it: `cv2.contourArea` and the first-order
`cv2.moments`. -/
structure Contour where
  area : ℚ
  m00 : ℚ
  m10 : ℚ
  m01 : ℚ
deriving DecidableEq, Repr

/-- The body of `Pupil.detect_iris` after `findContours`: sort the contours
ascending by `cv2.contourArea` (Python's `sorted` is stable, as is
`List.mergeSort`), index `[-2]` (raising `IndexError` when fewer than two
contours exist), and compute the truncated centroid `(m10/m00, m01/m00)`
(raising `ZeroDivisionError` when `m00 = 0`). -/
def detect_iris_body (cs : List Contour) : Except Err (ℤ × ℤ) :=
  let sorted := cs.mergeSort (fun a b => decide (a.area ≤ b.area))
  if h : sorted.length < 2 then .error .indexError
  else
    let c := sorted.get ⟨sorted.length - 2, by omega⟩
    if c.m00 = 0 then .error .zeroDivisionError
    else .ok (pyTrunc (c.m10 / c.m00), pyTrunc (c.m01 / c.m00))

/-- Embeds `Pupil.detect_iris` from the contour list onward: the surrounding
`try`/`except (IndexError, ZeroDivisionError): pass` leaves the coordinates
`None`, so both faults collapse to `none` and no fault escapes. -/
def detect_iris (cs : List Contour) : Option (ℤ × ℤ) :=
  match detect_iris_body cs with
  | .ok v => some v
  | .error _ => none

/-- Statement-side definition, following the claim's words: the second-largest
contour area, read off the ascending sort of the areas themselves. -/
def secondLargestArea (cs : List Contour) : ℚ :=
  ((cs.map Contour.area).mergeSort (fun a b => decide (a ≤ b))).getD (cs.length - 2) 0

/-! ## Eye (gaze_tracking/eye.py) -/

/-- A 68-point landmark set: `lm i` is `(landmarks.part(i).x, landmarks.part(i).y)`. -/
def Landmarks : Type := ℕ → ℤ × ℤ

/-- The `LEFT_EYE_POINTS` class attribute. -/
def LEFT_EYE_POINTS : List ℕ := [36, 37, 38, 39, 40, 41]

/-- The `RIGHT_EYE_POINTS` class attribute. -/
def RIGHT_EYE_POINTS : List ℕ := [42, 43, 44, 45, 46, 47]

/-- Embeds `Eye._middle_point`: `(int((x1+x2)/2), int((y1+y2)/2))` with
Python's true division and truncating `int()`. -/
def middle_point (p1 p2 : ℤ × ℤ) : ℤ × ℤ :=
  (pyTrunc (((p1.1 + p2.1 : ℤ) : ℚ) / 2), pyTrunc (((p1.2 + p2.2 : ℤ) : ℚ) / 2))

/-- Embeds `Eye._blinking_ratio`.  `math.hypot` is the external float square
root, embedded as `sqrtQ` applied to the exact sum of squares; the
`try ... except ZeroDivisionError: ratio = None` around the division is the
zero test on `eye_height`. -/
def blinking_ratio (sqrtQ : ℚ → ℚ) (lm : Landmarks) (points : List ℕ) : Option ℚ :=
  let left := lm (points.getD 0 0)
  let right := lm (points.getD 3 0)
  let top := middle_point (lm (points.getD 1 0)) (lm (points.getD 2 0))
  let bottom := middle_point (lm (points.getD 5 0)) (lm (points.getD 4 0))
  let eye_width := sqrtQ (((left.1 - right.1) ^ 2 + (left.2 - right.2) ^ 2 : ℤ) : ℚ)
  let eye_height := sqrtQ (((top.1 - bottom.1) ^ 2 + (top.2 - bottom.2) ^ 2 : ℤ) : ℚ)
  if eye_height = 0 then none else some (eye_width / eye_height)

/-- Result of `Eye._isolate`: the cropped eye frame plus the `origin` and
`center` attributes it sets. -/
structure IsolateResult where
  frame : Frame
  origin : ℤ × ℤ
  center : ℚ × ℚ

/-- Minimum of the listed coordinates (`np.min` over a non-empty array;
6 landmark points in the source, so the `[]` case is free). -/
def minList : List ℤ → ℤ
  | [] => 0
  | x :: xs => xs.foldl min x

/-- Maximum of the listed coordinates (`np.max`). -/
def maxList : List ℤ → ℤ
  | [] => 0
  | x :: xs => xs.foldl max x

/-- Embeds `Eye._isolate`.  `insidePoly x y` is the external `cv2.fillPoly`
rasterisation of the landmark polygon (true at the pixels the fill paints,
which include every pixel strictly inside the polygon and exclude every pixel
strictly outside it).  `cv2.bitwise_not(black_frame, frame.copy(), mask=mask)`
writes `NOT 0 = 255` exactly where the mask is non-zero (outside the fill) and
keeps the source intensity elsewhere; the crop is the numpy slice
`eye[min_y:max_y, min_x:max_x]` with a margin of 5 already folded into the
bounds. -/
def isolate (insidePoly : ℤ → ℤ → Bool) (frame : Frame) (lm : Landmarks)
    (points : List ℕ) : IsolateResult :=
  let region := points.map lm
  let margin : ℤ := 5
  let min_x := minList (region.map Prod.fst) - margin
  let max_x := maxList (region.map Prod.fst) + margin
  let min_y := minList (region.map Prod.snd) - margin
  let max_y := maxList (region.map Prod.snd) + margin
  let eye : Frame :=
    { h := frame.h, w := frame.w,
      pix := fun r c => if insidePoly (c : ℤ) (r : ℤ) then frame.pix r c else 255 }
  let cropped := eye.slice min_y max_y min_x max_x
  { frame := cropped,
    origin := (min_x, min_y),
    center := ((cropped.w : ℚ) / 2, (cropped.h : ℚ) / 2) }

/-- The per-eye data `GazeTracking` reads back off an `Eye` object. -/
structure EyeM where
  origin : ℤ × ℤ
  center : ℚ × ℚ
  blinking : Option ℚ
  pupil : Option (ℤ × ℤ)
deriving DecidableEq, Repr

/-- Embeds `Eye.__init__`/`Eye._analyze` plus the `Pupil` construction it ends
with.  `proc` is `Pupil.image_processing` (external OpenCV pipeline),
`contoursOf` is `cv2.findContours` on the processed binary frame, `insidePoly`
the `fillPoly` rasterisation, `sqrtQ` the float square root of `math.hypot`.
For a side other than 0/1 `_analyze` returns immediately, leaving an `Eye`
with no analysis data and the calibration untouched (`.ok (none, cal)`).
A `None` threshold handed to `Pupil` would fault inside `cv2.threshold`
(`typeError`); for a valid side the preceding `evaluate` makes that
unreachable. -/
def mkEye (sqrtQ : ℚ → ℚ) (proc : Frame → ℕ → Frame)
    (contoursOf : Frame → List Contour) (insidePoly : ℤ → ℤ → Bool)
    (frame : Frame) (lm : Landmarks) (side : ℤ) (cal : Calibration) :
    Except Err (Option EyeM × Calibration) :=
  if side = 0 ∨ side = 1 then do
    let points := if side = 0 then LEFT_EYE_POINTS else RIGHT_EYE_POINTS
    let blinking := blinking_ratio sqrtQ lm points
    let iso := isolate insidePoly frame lm points
    let cal2 ← if cal.is_complete then pure cal else cal.evaluate proc iso.frame side
    let thr? ← cal2.threshold side
    match thr? with
    | none => .error .typeError
    | some thr =>
      let pupil := detect_iris (contoursOf (proc iso.frame thr))
      pure (some { origin := iso.origin, center := iso.center,
                   blinking := blinking, pupil := pupil }, cal2)
  else .ok (none, cal)

/-! ## GazeTracking (gaze_tracking/gaze_tracking.py) -/

/-- The engine state after `refresh`: `eye_left`/`eye_right` are `None` when no
face was detected. -/
structure GazeS where
  eye_left : Option EyeM
  eye_right : Option EyeM
deriving DecidableEq, Repr

/-- Embeds the `pupils_located` property: `int()` of all four pupil
coordinates succeeds iff both pupils are set; any `Exception` (missing eye,
`None` coordinate) yields `False`. -/
def pupils_located (s : GazeS) : Bool :=
  match s.eye_left, s.eye_right with
  | some l, some r => l.pupil.isSome && r.pupil.isSome
  | _, _ => false

/-- Embeds `GazeTracking.horizontal_ratio`:
`pupil.x / (center[0] * 2 - 10)` per eye, averaged; a zero denominator makes
the float division raise `ZeroDivisionError` (unguarded in the source);
without located pupils the method falls through to `None`.  The `none` pupil
branches are unreachable under `pupils_located`. -/
def horizontal_ratio (s : GazeS) : Except Err (Option ℚ) :=
  if pupils_located s then
    match s.eye_left, s.eye_right with
    | some l, some r =>
      match l.pupil, r.pupil with
      | some pl, some pr =>
        let dL := l.center.1 * 2 - 10
        let dR := r.center.1 * 2 - 10
        if dL = 0 ∨ dR = 0 then .error .zeroDivisionError
        else .ok (some (((pl.1 : ℚ) / dL + (pr.1 : ℚ) / dR) / 2))
      | _, _ => .ok none
    | _, _ => .ok none
  else .ok none

/-- Embeds `GazeTracking.vertical_ratio`: as `horizontal_ratio` with
`pupil.y / (center[1] * 2 - 10)`. -/
def vertical_ratio (s : GazeS) : Except Err (Option ℚ) :=
  if pupils_located s then
    match s.eye_left, s.eye_right with
    | some l, some r =>
      match l.pupil, r.pupil with
      | some pl, some pr =>
        let dL := l.center.2 * 2 - 10
        let dR := r.center.2 * 2 - 10
        if dL = 0 ∨ dR = 0 then .error .zeroDivisionError
        else .ok (some (((pl.2 : ℚ) / dL + (pr.2 : ℚ) / dR) / 2))
      | _, _ => .ok none
    | _, _ => .ok none
  else .ok none

/-- Embeds `GazeTracking.is_right`: `self.horizontal_ratio() <= 0.35` under the
`pupils_located` guard, `None` otherwise.  Comparing a `None` ratio with a
float would be a `TypeError` (unreachable: under the guard the ratio is
numeric whenever the division did not fault). -/
def is_right (s : GazeS) : Except Err (Option Bool) :=
  if pupils_located s then do
    let r? ← horizontal_ratio s
    match r? with
    | some r => pure (some (decide (r ≤ 0.35)))
    | none => .error .typeError
  else pure none

/-- Embeds `GazeTracking.is_left`: `self.horizontal_ratio() >= 0.65` under the
`pupils_located` guard. -/
def is_left (s : GazeS) : Except Err (Option Bool) :=
  if pupils_located s then do
    let r? ← horizontal_ratio s
    match r? with
    | some r => pure (some (decide (0.65 ≤ r)))
    | none => .error .typeError
  else pure none

/-- Embeds `GazeTracking.is_center`:
`self.is_right() is not True and self.is_left() is not True`, with Python's
short-circuit `and` (when `is_right()` is `True` the left operand is `False`
and `is_left()` is never evaluated). -/
def is_center (s : GazeS) : Except Err (Option Bool) :=
  if pupils_located s then do
    let br ← is_right s
    if br = some true then pure (some false)
    else do
      let bl ← is_left s
      pure (some (decide (bl ≠ some true)))
  else pure none

/-- Embeds `GazeTracking.is_blinking`:
`(self.eye_left.blinking + self.eye_right.blinking) / 2 > 3.8` under the
`pupils_located` guard.  Adding a `None` blink ratio to a number (or to
`None`) raises `TypeError` — the source has no guard for it. -/
def is_blinking (s : GazeS) : Except Err (Option Bool) :=
  if pupils_located s then
    match s.eye_left, s.eye_right with
    | some l, some r =>
      match l.blinking, r.blinking with
      | some a, some b => .ok (some (decide ((a + b) / 2 > 3.8)))
      | _, _ => .error .typeError
    | _, _ => .ok none
  else .ok none

/-- A sequence of `Calibration.evaluate` calls for one side, one per frame
(the engine performs one such call per frame and side while calibration is
incomplete). -/
def evalRun (proc : Frame → ℕ → Frame) (s : Calibration) (fs : List Frame)
    (side : ℤ) : Except Err Calibration :=
  fs.foldlM (fun a f => a.evaluate proc f side) s

/-! ## Concrete instances used by witnesses and counterexamples -/

/-- Identity stand-in for the external `Pupil.image_processing` pipeline. -/
def procId : Frame → ℕ → Frame := fun f _ => f

/-- A float square root stand-in that is zero everywhere (only `sqrtQ 0 = 0`
matters to the statements that use it). -/
def sqrt0 : ℚ → ℚ := fun _ => 0

/-- The identity as a float square root stand-in (`sqrtId 0 = 0`). -/
def sqrtId : ℚ → ℚ := fun q => q

/-- A `fillPoly` rasterisation that paints everything. -/
def insideAll : ℤ → ℤ → Bool := fun _ _ => true

/-- A `findContours` stand-in returning two contours; ascending sort by area
puts the `m00 = 10` one second-largest, with centroid `(25/10, 31/10)`,
truncated to `(2, 3)`. -/
def contoursC : Frame → List Contour := fun _ => [⟨40, 40, 80, 120⟩, ⟨20, 10, 25, 31⟩]

/-- An 11×11 all-black frame (the smallest size whose 5-pixel border crop is
non-empty). -/
def frameBlack : Frame := ⟨11, 11, fun _ _ => 0⟩

/-- A 10×10 frame: its 5-pixel border crop is empty. -/
def frameSmall : Frame := ⟨10, 10, fun _ _ => 0⟩

/-- A completed calibration state (20 samples of threshold 5 per side). -/
def cal20 : Calibration := ⟨List.replicate 20 5, List.replicate 20 5⟩

/-- Witness state for the direction queries: both pupils at `x = 2` in a
20-pixel-wide eye region (`center.x = 10`), so the horizontal ratio is
`(2/10 + 2/10)/2 = 1/5`. -/
def sW1 : GazeS :=
  ⟨some ⟨(0, 0), (10, 5), some 1, some (2, 3)⟩,
   some ⟨(0, 0), (10, 5), some 1, some (2, 3)⟩⟩

/-- Witness state with both pupils at `x = 14`: horizontal ratio `7/5 ≥ 0.65`. -/
def sW2 : GazeS :=
  ⟨some ⟨(0, 0), (10, 5), some 1, some (14, 3)⟩,
   some ⟨(0, 0), (10, 5), some 1, some (14, 3)⟩⟩

/-- State with no detected face: both eyes `None`. -/
def sW3 : GazeS := ⟨none, none⟩

/-- A 40×40 all-black frame. -/
def C1frame : Frame := ⟨40, 40, fun _ _ => 0⟩

/-- Landmarks whose left-eye upper-lid midpoint `mid(37,38) = (15,15)`
coincides with the lower-lid midpoint `mid(41,40) = (15,15)` while the eye
has a 20×14 expanded bounding box well inside the frame; the right eye is
analogous, 10 rows lower. -/
def C1lm : Landmarks := fun i =>
  match i with
  | 36 => (10, 15) | 37 => (14, 13) | 38 => (16, 17)
  | 39 => (20, 15) | 40 => (16, 13) | 41 => (14, 17)
  | 42 => (10, 25) | 43 => (14, 23) | 44 => (16, 27)
  | 45 => (20, 25) | 46 => (16, 23) | 47 => (14, 27)
  | _ => (0, 0)

/-- The engine state `refresh` builds on `C1frame`/`C1lm`: construct the left
`Eye` then the right one, threading the calibration state, exactly as
`GazeTracking._analyze` does. -/
def C1state : Except Err GazeS := do
  let (eL, c1) ← mkEye sqrt0 procId contoursC insideAll C1frame C1lm 0 ⟨[], []⟩
  let (eR, _) ← mkEye sqrt0 procId contoursC insideAll C1frame C1lm 1 c1
  pure ⟨eL, eR⟩

/-- The state `C1state` evaluates to: both pupils located, left blink ratio
undefined. -/
def C1expected : GazeS :=
  ⟨some ⟨(5, 8), (10, 7), none, some (2, 3)⟩,
   some ⟨(5, 18), (10, 7), none, some (2, 3)⟩⟩

/-- A 40×40 all-black frame for the unguarded-division states. -/
def C10frame : Frame := ⟨40, 40, fun _ _ => 0⟩

/-- Landmarks whose six left-eye points share the x-coordinate 15, so the
isolated eye region is exactly 10 pixels wide; the right eye is ordinary. -/
def C10lmH : Landmarks := fun i =>
  match i with
  | 36 => (15, 10) | 37 => (15, 12) | 38 => (15, 14)
  | 39 => (15, 16) | 40 => (15, 18) | 41 => (15, 20)
  | 42 => (10, 25) | 43 => (14, 23) | 44 => (16, 27)
  | 45 => (20, 25) | 46 => (16, 23) | 47 => (14, 27)
  | _ => (0, 0)

/-- Landmarks whose six left-eye points share the y-coordinate 15, so the
isolated eye region is exactly 10 pixels high. -/
def C10lmV : Landmarks := fun i =>
  match i with
  | 36 => (10, 15) | 37 => (12, 15) | 38 => (14, 15)
  | 39 => (16, 15) | 40 => (18, 15) | 41 => (20, 15)
  | 42 => (10, 25) | 43 => (14, 23) | 44 => (16, 27)
  | 45 => (20, 25) | 46 => (16, 23) | 47 => (14, 27)
  | _ => (0, 0)

/-- Engine state on the degenerate-width landmarks, with calibration already
complete (as it is after the first 20 frames of a session). -/
def C10stateH : Except Err GazeS := do
  let (eL, c1) ← mkEye sqrt0 procId contoursC insideAll C10frame C10lmH 0 cal20
  let (eR, _) ← mkEye sqrt0 procId contoursC insideAll C10frame C10lmH 1 c1
  pure ⟨eL, eR⟩

/-- Engine state on the degenerate-height landmarks. -/
def C10stateV : Except Err GazeS := do
  let (eL, c1) ← mkEye sqrt0 procId contoursC insideAll C10frame C10lmV 0 cal20
  let (eR, _) ← mkEye sqrt0 procId contoursC insideAll C10frame C10lmV 1 c1
  pure ⟨eL, eR⟩

/-- The value of `C10stateH`: pupils located, left eye centered at `x = 5`
(width 10), so the horizontal denominator `2*5 - 10` is zero. -/
def C10expectedH : GazeS :=
  ⟨some ⟨(10, 5), (5, 10), none, some (2, 3)⟩,
   some ⟨(5, 18), (10, 7), none, some (2, 3)⟩⟩

/-- The value of `C10stateV`: pupils located, left eye centered at `y = 5`
(height 10), so the vertical denominator `2*5 - 10` is zero. -/
def C10expectedV : GazeS :=
  ⟨some ⟨(5, 10), (10, 5), none, some (2, 3)⟩,
   some ⟨(5, 18), (10, 7), none, some (2, 3)⟩⟩

/-- A 30×30 frame with distinguishable pixel values. -/
def C4frame : Frame := ⟨30, 30, fun r c => r + c⟩

/-- Left-eye landmarks whose bounding box (x 10–16, y 10–15) sits at least
5 pixels inside every border of `C4frame`. -/
def C4lm : Landmarks := fun i =>
  match i with
  | 36 => (10, 12) | 37 => (12, 10) | 38 => (14, 10)
  | 39 => (16, 12) | 40 => (14, 15) | 41 => (12, 15)
  | _ => (0, 0)

/-- A rasterisation predicate for the `C4lm` polygon region. -/
def C4inside : ℤ → ℤ → Bool := fun x y =>
  decide (10 ≤ x ∧ x ≤ 16 ∧ 10 ≤ y ∧ y ≤ 15)

/-- A 20×20 constant frame for the border counterexample. -/
def C4cframe : Frame := ⟨20, 20, fun _ _ => 7⟩

/-- Landmarks 2–3 pixels from the left frame border: the margin-expanded
bounding box starts at column `-3`, which numpy slicing wraps around. -/
def C4clm : Landmarks := fun i =>
  match i with
  | 36 => (2, 10) | 37 => (3, 10) | 38 => (2, 11)
  | 39 => (3, 11) | 40 => (2, 12) | 41 => (3, 12)
  | _ => (0, 0)

/-- Landmark set for the blink-ratio witness: corners `(0,0)` and `(10,0)`
(width 10), all four lid points at `(5,0)` (midpoint height 0). -/
def C7lm : Landmarks := fun i =>
  match i with
  | 0 => (0, 0) | 3 => (10, 0) | _ => (5, 0)

/-! ## Theorems -/

/-- C7: for every landmark set whose upper-lid and lower-lid midpoints
coincide, `Eye._blinking_ratio` returns the undefined value (`None`) and never
raises a division fault, whatever the corner width: the zero height makes
`eye_height = hypot(0,0) = 0` and the `except ZeroDivisionError` branch sets
the ratio to `None`. -/
theorem blinking_ratio_zero_height_none (sqrtQ : ℚ → ℚ) (hsq : sqrtQ 0 = 0)
    (lm : Landmarks) (points : List ℕ)
    (hmid : middle_point (lm (points.getD 1 0)) (lm (points.getD 2 0)) =
      middle_point (lm (points.getD 5 0)) (lm (points.getD 4 0))) :
    blinking_ratio sqrtQ lm points = none := by
  unfold blinking_ratio
  rw [hmid]
  simp [hsq]

/-- Witness for C7 at the spec's test vector: corner width 10 and lid-midpoint
height 0. -/
theorem blinking_ratio_zero_height_none_witness :
    blinking_ratio sqrtId C7lm [0, 1, 2, 3, 4, 5] = none :=
  blinking_ratio_zero_height_none sqrtId rfl C7lm [0, 1, 2, 3, 4, 5]
    (by with_unfolding_all decide)

/-- C8 counterexample: calling `Calibration.threshold` with the invalid side 2
does not fail fast with an error — it silently returns the undefined value
(`None`), exactly the "no result" outcome the claim says it must be distinct
from. -/
theorem invalid_side_counterexample :
    Calibration.threshold ⟨[7], [9]⟩ 2 = .ok none := by
  decide

/-- C8 as amended: a side other than LEFT (0) and RIGHT (1) is handled
silently, not fail-fast: `Calibration.threshold` returns `None`,
`Calibration.evaluate`'s append leaves the state unchanged, and `Eye._analyze`
returns immediately with no analysis performed and the calibration
untouched. -/
theorem invalid_side_silent (side : ℤ) (h0 : side ≠ 0) (h1 : side ≠ 1) :
    (∀ s : Calibration, s.threshold side = .ok none) ∧
    (∀ (s : Calibration) (t : ℕ), s.appendSample t side = s) ∧
    (∀ (sqrtQ : ℚ → ℚ) (proc : Frame → ℕ → Frame)
       (contoursOf : Frame → List Contour) (insidePoly : ℤ → ℤ → Bool)
       (frame : Frame) (lm : Landmarks) (cal : Calibration),
       mkEye sqrtQ proc contoursOf insidePoly frame lm side cal = .ok (none, cal)) := by
  refine ⟨fun s => ?_, fun s t => ?_, fun sqrtQ proc contoursOf insidePoly frame lm cal => ?_⟩
  · simp [Calibration.threshold, h0, h1]
  · simp [Calibration.appendSample, h0, h1]
  · have : ¬ (side = 0 ∨ side = 1) := by tauto
    simp [mkEye, this]

/-- Witness for C8's amended statement at side 2. -/
theorem invalid_side_silent_witness :
    Calibration.threshold ⟨[], []⟩ 2 = .ok none ∧
    mkEye sqrtId procId contoursC insideAll frameBlack C7lm 2 ⟨[], []⟩ =
      .ok (none, ⟨[], []⟩) :=
  ⟨(invalid_side_silent 2 (by decide) (by decide)).1 ⟨[], []⟩,
   (invalid_side_silent 2 (by decide) (by decide)).2.2 sqrtId procId contoursC
     insideAll frameBlack C7lm ⟨[], []⟩⟩

/-- One engine calibration step keeps the two sample lists equal in length and
capped at `nb_frames`. -/
theorem calStep_inv (s : Calibration) (v : ℕ × ℕ)
    (h : s.thresholds_left.length = s.thresholds_right.length ∧
      s.thresholds_left.length ≤ Calibration.nb_frames) :
    (calStep s v).thresholds_left.length = (calStep s v).thresholds_right.length ∧
    (calStep s v).thresholds_left.length ≤ Calibration.nb_frames := by
  obtain ⟨heq, hle⟩ := h
  by_cases hc : s.is_complete
  · simp [calStep, hc]
    exact ⟨heq, hle⟩
  · have hlt : s.thresholds_left.length < Calibration.nb_frames := by
      by_contra hge
      apply hc
      simp [Calibration.is_complete]
      omega
    have h1 : (s.appendSample v.1 0).is_complete = false := by
      simp [Calibration.appendSample, Calibration.is_complete]
      omega
    have hc2 : s.is_complete = false := by
      simp at hc
      exact hc
    simp only [calStep, hc2, h1, Bool.false_eq_true, if_false]
    simp [Calibration.appendSample]
    omega

/-- C9: under the engine's caller-gated per-frame usage (`Eye._analyze` checks
`is_complete` before each `evaluate`; the left then the right eye of each
frame), both sample lists stay within the capacity of 20, and once
`is_complete` holds a step is the identity, so `threshold` is frozen for every
later frame of the engine's lifetime. -/
theorem calibration_capacity_and_freeze :
    (∀ vs : List (ℕ × ℕ),
      (calRun ⟨[], []⟩ vs).thresholds_left.length ≤ 20 ∧
      (calRun ⟨[], []⟩ vs).thresholds_right.length ≤ 20) ∧
    (∀ (s : Calibration) (v : ℕ × ℕ), s.is_complete = true → calStep s v = s) ∧
    (∀ (s : Calibration) (vs : List (ℕ × ℕ)) (side : ℤ), s.is_complete = true →
      Calibration.threshold (calRun s vs) side = s.threshold side) := by
  have hstep : ∀ (s : Calibration) (v : ℕ × ℕ), s.is_complete = true → calStep s v = s := by
    intro s v h
    simp [calStep, h]
  have hrun : ∀ (vs : List (ℕ × ℕ)) (s : Calibration), s.is_complete = true →
      calRun s vs = s := by
    intro vs
    induction vs with
    | nil => intro s _; rfl
    | cons v vs ih =>
      intro s h
      have : calRun s (v :: vs) = calRun (calStep s v) vs := rfl
      rw [this, hstep s v h, ih s h]
  refine ⟨fun vs => ?_, hstep, fun s vs side h => by rw [hrun vs s h]⟩
  · have main : ∀ (vs : List (ℕ × ℕ)) (s : Calibration),
        s.thresholds_left.length = s.thresholds_right.length ∧
          s.thresholds_left.length ≤ Calibration.nb_frames →
        (calRun s vs).thresholds_left.length = (calRun s vs).thresholds_right.length ∧
          (calRun s vs).thresholds_left.length ≤ Calibration.nb_frames := by
      intro vs
      induction vs with
      | nil => intro s h; exact h
      | cons v vs ih =>
        intro s h
        exact ih (calStep s v) (calStep_inv s v h)
    have h0 : ((⟨[], []⟩ : Calibration).thresholds_left.length =
        (⟨[], []⟩ : Calibration).thresholds_right.length ∧
        (⟨[], []⟩ : Calibration).thresholds_left.length ≤ Calibration.nb_frames) := by
      constructor <;> simp [Calibration.nb_frames]
    obtain ⟨he, hl⟩ := main vs ⟨[], []⟩ h0
    exact ⟨hl, he ▸ hl⟩

/-- Witness for C9's hypothesis-bearing conjuncts, at a completed state. -/
theorem calibration_capacity_and_freeze_witness :
    cal20.is_complete = true ∧ calStep cal20 (7, 9) = cal20 ∧
    Calibration.threshold (calRun cal20 [(7, 9), (3, 4)]) 0 = cal20.threshold 0 :=
  ⟨by decide,
   calibration_capacity_and_freeze.2.1 cal20 (7, 9) (by decide),
   calibration_capacity_and_freeze.2.2 cal20 [(7, 9), (3, 4)] 0 (by decide)⟩

/-- Folding left-side appends concatenates onto the left sample list. -/
theorem foldl_appendSample_left (ts : List ℕ) (s : Calibration) :
    ts.foldl (fun a t => a.appendSample t 0) s =
      ⟨s.thresholds_left ++ ts, s.thresholds_right⟩ := by
  induction ts generalizing s with
  | nil => simp
  | cons t ts ih =>
    rw [List.foldl_cons, ih]
    simp [Calibration.appendSample]

/-- Folding right-side appends concatenates onto the right sample list. -/
theorem foldl_appendSample_right (ts : List ℕ) (s : Calibration) :
    ts.foldl (fun a t => a.appendSample t 1) s =
      ⟨s.thresholds_left, s.thresholds_right ++ ts⟩ := by
  induction ts generalizing s with
  | nil => simp
  | cons t ts ih =>
    rw [List.foldl_cons, ih]
    simp [Calibration.appendSample]

/-- A run of `Calibration.evaluate` calls whose `find_best_threshold` results
are `ts` is the pure fold of the corresponding appends. -/
theorem evalRun_eq_foldl (proc : Frame → ℕ → Frame) :
    ∀ (fs : List Frame) (ts : List ℕ),
      fs.mapM (find_best_threshold proc) = .ok ts →
      ∀ (s : Calibration) (side : ℤ),
        evalRun proc s fs side = .ok (ts.foldl (fun a t => a.appendSample t side) s) := by
  intro fs
  induction fs with
  | nil =>
    intro ts h s side
    simp only [List.mapM_nil, pure, Except.pure] at h
    cases h
    simp [evalRun, pure, Except.pure]
  | cons f fs ih =>
    intro ts h s side
    rw [List.mapM_cons] at h
    cases hf : find_best_threshold proc f with
    | error e => rw [hf] at h; simp [Bind.bind, Except.bind] at h
    | ok t =>
      rw [hf] at h
      cases hrest : List.mapM (find_best_threshold proc) fs with
      | error e =>
        rw [hrest] at h
        simp [Bind.bind, Except.bind, pure, Except.pure] at h
      | ok rest =>
        rw [hrest] at h
        simp only [Bind.bind, Except.bind, pure, Except.pure, Except.ok.injEq] at h
        subst h
        show (s.evaluate proc f side) >>= (fun a => evalRun proc a fs side) = _
        have : s.evaluate proc f side = .ok (s.appendSample t side) := by
          simp [Calibration.evaluate, hf, Bind.bind, Except.bind, pure, Except.pure]
        rw [this]
        show evalRun proc (s.appendSample t side) fs side = _
        rw [ih rest hrest (s.appendSample t side) side]
        rfl

/-- C6: `Calibration.threshold(side)` is the integer average of that side's
collected samples, truncated toward zero (the samples are non-negative, so
Python's truncating `int()` of the float average is `Nat` division); and after
20 `evaluate()` calls per side from a fresh state, `is_complete()` holds and
each side's threshold is the truncated mean of its 20 collected values. -/
theorem threshold_truncated_mean_and_convergence :
    (∀ s : Calibration,
      (s.thresholds_left ≠ [] →
        s.threshold 0 = .ok (some (s.thresholds_left.sum / s.thresholds_left.length))) ∧
      (s.thresholds_right ≠ [] →
        s.threshold 1 = .ok (some (s.thresholds_right.sum / s.thresholds_right.length)))) ∧
    (∀ (proc : Frame → ℕ → Frame) (fsL fsR : List Frame) (tsL tsR : List ℕ),
      fsL.mapM (find_best_threshold proc) = .ok tsL →
      fsR.mapM (find_best_threshold proc) = .ok tsR →
      tsL.length = 20 → tsR.length = 20 →
      ∃ sfin : Calibration,
        ((evalRun proc ⟨[], []⟩ fsL 0) >>= fun s1 => evalRun proc s1 fsR 1) = .ok sfin ∧
        sfin.is_complete = true ∧
        sfin.threshold 0 = .ok (some (tsL.sum / 20)) ∧
        sfin.threshold 1 = .ok (some (tsR.sum / 20))) := by
  constructor
  · intro s
    constructor
    · intro h
      have : s.thresholds_left.length ≠ 0 := by simpa using h
      simp [Calibration.threshold, this]
    · intro h
      have : s.thresholds_right.length ≠ 0 := by simpa using h
      simp [Calibration.threshold, this]
  · intro proc fsL fsR tsL tsR hL hR hlenL hlenR
    refine ⟨⟨tsL, tsR⟩, ?_, ?_, ?_, ?_⟩
    · rw [evalRun_eq_foldl proc fsL tsL hL ⟨[], []⟩ 0, foldl_appendSample_left]
      show evalRun proc ⟨[] ++ tsL, []⟩ fsR 1 = _
      rw [evalRun_eq_foldl proc fsR tsR hR ⟨[] ++ tsL, []⟩ 1, foldl_appendSample_right]
      simp
    · simp [Calibration.is_complete, Calibration.nb_frames, hlenL, hlenR]
    · simp [Calibration.threshold, hlenL]
    · simp [Calibration.threshold, hlenR]

/-- Witness for C6: 20 identical all-black 11×11 frames per side each
calibrate to threshold 5, and the final state is complete with threshold 5 on
both sides. -/
theorem threshold_truncated_mean_and_convergence_witness :
    Calibration.threshold ⟨[7, 8], []⟩ 0 = .ok (some ([7, 8].sum / [7, 8].length)) ∧
    (∃ sfin : Calibration,
      ((evalRun procId ⟨[], []⟩ (List.replicate 20 frameBlack) 0) >>=
        fun s1 => evalRun procId s1 (List.replicate 20 frameBlack) 1) = .ok sfin ∧
      sfin.is_complete = true ∧
      sfin.threshold 0 = .ok (some ((List.replicate 20 5).sum / 20)) ∧
      sfin.threshold 1 = .ok (some ((List.replicate 20 5).sum / 20))) :=
  ⟨(threshold_truncated_mean_and_convergence.1 ⟨[7, 8], []⟩).1 (by decide),
   threshold_truncated_mean_and_convergence.2 procId
     (List.replicate 20 frameBlack) (List.replicate 20 frameBlack)
     (List.replicate 20 5) (List.replicate 20 5)
     (by with_unfolding_all decide) (by with_unfolding_all decide)
     (by decide) (by decide)⟩

/-- C5: whenever `horizontal_ratio()` yields a numeric value `r` (which
entails pupils located), `is_right()` is true iff `r ≤ 0.35`, `is_left()` is
true iff `r ≥ 0.65`, and `is_center()` is true iff neither holds; in
particular `r ≥ 0.65` forces left/not-right/not-center; and all three queries
yield the undefined value when pupils are not located. -/
theorem gaze_direction_spec :
    (∀ (s : GazeS) (r : ℚ), horizontal_ratio s = .ok (some r) →
      is_right s = .ok (some (decide (r ≤ 0.35))) ∧
      is_left s = .ok (some (decide (0.65 ≤ r))) ∧
      is_center s = .ok (some (!(decide (r ≤ 0.35)) && !(decide (0.65 ≤ r))))) ∧
    (∀ (s : GazeS) (r : ℚ), horizontal_ratio s = .ok (some r) → 0.65 ≤ r →
      is_left s = .ok (some true) ∧ is_right s = .ok (some false) ∧
      is_center s = .ok (some false)) ∧
    (∀ s : GazeS, pupils_located s = false →
      is_right s = .ok none ∧ is_left s = .ok none ∧ is_center s = .ok none) := by
  have located : ∀ (s : GazeS) (r : ℚ), horizontal_ratio s = .ok (some r) →
      pupils_located s = true := by
    intro s r h
    by_contra hb
    have hb2 : pupils_located s = false := by simpa using hb
    rw [horizontal_ratio] at h
    simp [hb2] at h
  have part1 : ∀ (s : GazeS) (r : ℚ), horizontal_ratio s = .ok (some r) →
      is_right s = .ok (some (decide (r ≤ 0.35))) ∧
      is_left s = .ok (some (decide (0.65 ≤ r))) ∧
      is_center s = .ok (some (!(decide (r ≤ 0.35)) && !(decide (0.65 ≤ r)))) := by
    intro s r h
    have hloc := located s r h
    have hr : is_right s = .ok (some (decide (r ≤ 0.35))) := by
      simp [is_right, hloc, h, Bind.bind, Except.bind, pure, Except.pure]
    have hl : is_left s = .ok (some (decide (0.65 ≤ r))) := by
      simp [is_left, hloc, h, Bind.bind, Except.bind, pure, Except.pure]
    refine ⟨hr, hl, ?_⟩
    by_cases h35 : r ≤ 0.35
    · simp [is_center, hloc, hr, h35, Bind.bind, Except.bind, pure, Except.pure]
    · by_cases h65 : (0.65 : ℚ) ≤ r <;>
        simp [is_center, hloc, hr, hl, h35, h65, Bind.bind, Except.bind, pure, Except.pure]
  refine ⟨part1, ?_, ?_⟩
  · intro s r h h65
    obtain ⟨hr, hl, hc⟩ := part1 s r h
    have h35 : ¬ (r ≤ 0.35) := by
      intro hle
      have : (0.65 : ℚ) ≤ 0.35 := le_trans h65 hle
      norm_num at this
    rw [hr, hl, hc]
    simp [h35, h65]
  · intro s h
    refine ⟨?_, ?_, ?_⟩ <;> simp [is_right, is_left, is_center, h, pure, Except.pure]

/-- Witness for C5: a state with horizontal ratio `1/5` (is_right true), one
with ratio `7/5 ≥ 0.65` (is_left true, is_right and is_center false), and the
faceless state (all queries undefined). -/
theorem gaze_direction_spec_witness :
    (is_right sW1 = .ok (some (decide ((1 : ℚ)/5 ≤ 0.35))) ∧
      is_center sW1 = .ok (some (!(decide ((1 : ℚ)/5 ≤ 0.35)) &&
        !(decide ((0.65 : ℚ) ≤ 1/5))))) ∧
    (is_left sW2 = .ok (some true) ∧ is_right sW2 = .ok (some false) ∧
      is_center sW2 = .ok (some false)) ∧
    is_right sW3 = .ok none :=
  ⟨⟨(gaze_direction_spec.1 sW1 (1/5) (by with_unfolding_all decide)).1,
    (gaze_direction_spec.1 sW1 (1/5) (by with_unfolding_all decide)).2.2⟩,
   gaze_direction_spec.2.1 sW2 (7/5) (by with_unfolding_all decide) (by norm_num),
   (gaze_direction_spec.2.2 sW3 (by decide)).1⟩

/-- The result of Python's `min`-style fold (by distance of the second
component to `average_iris_size`) is an element of the list. -/
theorem foldl_pick_mem :
    ∀ (ps : List (ℕ × ℚ)) (p : ℕ × ℚ),
      ps.foldl (fun best q =>
        if |q.2 - average_iris_size| < |best.2 - average_iris_size| then q
        else best) p ∈ p :: ps := by
  intro ps
  induction ps with
  | nil => simp
  | cons q qs ih =>
    intro p
    rw [List.foldl_cons]
    by_cases hc : |q.2 - average_iris_size| < |p.2 - average_iris_size|
    · rw [if_pos hc]
      rcases List.mem_cons.mp (ih q) with h1 | h1
      · rw [h1]; simp
      · exact List.mem_cons_of_mem _ (List.mem_cons_of_mem _ h1)
    · rw [if_neg hc]
      rcases List.mem_cons.mp (ih p) with h1 | h1
      · rw [h1]; simp
      · exact List.mem_cons_of_mem _ (List.mem_cons_of_mem _ h1)

/-- The result of the fold minimises the distance to `average_iris_size` over
the list. -/
theorem foldl_pick_min :
    ∀ (ps : List (ℕ × ℚ)) (p : ℕ × ℚ) (x : ℕ × ℚ), x ∈ p :: ps →
      |(ps.foldl (fun best q =>
        if |q.2 - average_iris_size| < |best.2 - average_iris_size| then q
        else best) p).2 - average_iris_size| ≤ |x.2 - average_iris_size| := by
  intro ps
  induction ps with
  | nil =>
    intro p x hx
    rw [List.foldl_nil]
    rcases List.mem_cons.mp hx with h1 | h1
    · rw [h1]
    · simp at h1
  | cons q qs ih =>
    intro p x hx
    rw [List.foldl_cons]
    by_cases hc : |q.2 - average_iris_size| < |p.2 - average_iris_size|
    · rw [if_pos hc]
      have hhead := ih q q (List.mem_cons_self _ _)
      rcases List.mem_cons.mp hx with h1 | h1
      · rw [h1]; exact le_trans hhead (le_of_lt hc)
      · rcases List.mem_cons.mp h1 with h2 | h2
        · rw [h2]; exact hhead
        · exact ih q x (List.mem_cons_of_mem _ h2)
    · rw [if_neg hc]
      have hhead := ih p p (List.mem_cons_self _ _)
      rcases List.mem_cons.mp hx with h1 | h1
      · rw [h1]; exact hhead
      · rcases List.mem_cons.mp h1 with h2 | h2
        · rw [h2]; exact le_trans hhead (le_of_not_lt hc)
        · exact ih p x (List.mem_cons_of_mem _ h2)

/-- Ties in the fold go to the earliest element: with first components
strictly increasing along the list, any element whose distance equals the
minimum has a first component at least that of the fold's result (Python's
`min` keeps the first minimiser). -/
theorem foldl_pick_tie :
    ∀ (ps : List (ℕ × ℚ)) (p : ℕ × ℚ),
      (p :: ps).Pairwise (fun a b => a.1 < b.1) →
      ∀ x ∈ p :: ps,
        |x.2 - average_iris_size| =
          |(ps.foldl (fun best q =>
            if |q.2 - average_iris_size| < |best.2 - average_iris_size| then q
            else best) p).2 - average_iris_size| →
        (ps.foldl (fun best q =>
          if |q.2 - average_iris_size| < |best.2 - average_iris_size| then q
          else best) p).1 ≤ x.1 := by
  intro ps
  induction ps with
  | nil =>
    intro p _ x hx _
    rw [List.foldl_nil]
    rcases List.mem_cons.mp hx with h1 | h1
    · rw [h1]
    · simp at h1
  | cons q qs ih =>
    intro p hpw x hx hkey
    rw [List.foldl_cons] at hkey ⊢
    obtain ⟨hp_all, hpw2⟩ := List.pairwise_cons.mp hpw
    by_cases hc : |q.2 - average_iris_size| < |p.2 - average_iris_size|
    · rw [if_pos hc] at hkey ⊢
      rcases List.mem_cons.mp hx with h1 | h1
      · exfalso
        have h2 := foldl_pick_min qs q q (List.mem_cons_self _ _)
        have h3 : |p.2 - average_iris_size| ≤ |q.2 - average_iris_size| := by
          rw [h1] at hkey
          exact hkey.le.trans h2
        exact absurd hc (not_lt.mpr h3)
      · exact ih q hpw2 x h1 hkey
    · rw [if_neg hc] at hkey ⊢
      obtain ⟨hq_all, hqs⟩ := List.pairwise_cons.mp hpw2
      have hpw3 : (p :: qs).Pairwise (fun a b : ℕ × ℚ => a.1 < b.1) :=
        List.pairwise_cons.mpr ⟨fun y hy => hp_all y (List.mem_cons_of_mem _ hy), hqs⟩
      rcases List.mem_cons.mp hx with h1 | h1
      · rw [h1] at hkey ⊢
        exact ih p hpw3 p (List.mem_cons_self _ _) hkey
      · rcases List.mem_cons.mp h1 with h2 | h2
        · have hresp := foldl_pick_min qs p p (List.mem_cons_self _ _)
          have hpq : |p.2 - average_iris_size| ≤ |x.2 - average_iris_size| := by
            rw [h2]; exact le_of_not_lt hc
          have hkp : |p.2 - average_iris_size| =
              |(qs.foldl (fun best q =>
                if |q.2 - average_iris_size| < |best.2 - average_iris_size| then q
                else best) p).2 - average_iris_size| :=
            le_antisymm (hpq.trans hkey.le) hresp
          have hstep := ih p hpw3 p (List.mem_cons_self _ _) hkp
          have hlt : p.1 < x.1 := by
            rw [h2]; exact hp_all q (List.mem_cons_self _ _)
          exact le_trans hstep (le_of_lt hlt)
        · exact ih p hpw3 x (List.mem_cons_of_mem _ h2) hkey

/-- A slice endpoint within bounds resolves to itself. -/
theorem sliceIdx_of_nonneg (n : ℕ) (i : ℤ) (h0 : 0 ≤ i) (h1 : i ≤ (n : ℤ)) :
    sliceIdx n i = i.toNat := by
  unfold sliceIdx
  rw [if_neg (by omega)]
  omega

/-- A negative slice endpoint counts from the end. -/
theorem sliceIdx_of_neg (n : ℕ) (i : ℤ) (h : i < 0) :
    sliceIdx n i = ((n : ℤ) + i).toNat := by
  unfold sliceIdx
  rw [if_pos h]

/-- On patches at least 11 pixels in both dimensions, `iris_size` succeeds and
returns the total ratio `irisQ`. -/
theorem iris_size_ok (f : Frame) (hh : 11 ≤ f.h) (hw : 11 ≤ f.w) :
    Calibration.iris_size f = .ok (Calibration.irisQ f) := by
  have h5h : sliceIdx f.h 5 = 5 := by rw [sliceIdx_of_nonneg] <;> omega
  have h5w : sliceIdx f.w 5 = 5 := by rw [sliceIdx_of_nonneg] <;> omega
  have hmh : sliceIdx f.h (-5) = f.h - 5 := by rw [sliceIdx_of_neg] <;> omega
  have hmw : sliceIdx f.w (-5) = f.w - 5 := by rw [sliceIdx_of_neg] <;> omega
  have hn : (f.slice 5 (-5) 5 (-5)).h * (f.slice 5 (-5) 5 (-5)).w ≠ 0 := by
    show (sliceIdx f.h (-5) - sliceIdx f.h 5) * (sliceIdx f.w (-5) - sliceIdx f.w 5) ≠ 0
    rw [h5h, h5w, hmh, hmw]
    have : 0 < (f.h - 5 - 5) * (f.w - 5 - 5) := Nat.mul_pos (by omega) (by omega)
    omega
  unfold Calibration.iris_size Calibration.irisQ
  rw [if_neg hn]

/-- C2 counterexample: on a 10×10 eye patch the 5-pixel border crop inside
`iris_size` is empty, so `find_best_threshold` raises `ZeroDivisionError`
instead of returning any candidate threshold — the claim's universal "for
every eye patch" fails.  (The identity pipeline stand-in is immaterial: the
crop of any same-shape processed patch is empty.) -/
theorem find_best_threshold_small_patch_faults :
    find_best_threshold procId frameSmall = .error .zeroDivisionError := by
  with_unfolding_all decide

/-- C2 as amended: for every eye patch whose processed frames are at least
11 pixels in both dimensions (so that the border-cropped patch is non-empty;
the OpenCV pipeline preserves the shape), `find_best_threshold` returns the
candidate from {5,10,...,95} whose resulting iris fraction minimises the
distance to 0.48, ties broken by the lowest threshold in ascending iteration
order.  Determinism is inherent: the embedding is a pure function of the
patch. -/
theorem find_best_threshold_argmin (proc : Frame → ℕ → Frame) (f : Frame)
    (hd : ∀ t ∈ candidateThresholds, 11 ≤ (proc f t).h ∧ 11 ≤ (proc f t).w) :
    ∃ r, find_best_threshold proc f = .ok r ∧ r ∈ candidateThresholds ∧
      (∀ t ∈ candidateThresholds,
        |Calibration.irisQ (proc f r) - average_iris_size| ≤
          |Calibration.irisQ (proc f t) - average_iris_size|) ∧
      (∀ t ∈ candidateThresholds,
        |Calibration.irisQ (proc f t) - average_iris_size| =
          |Calibration.irisQ (proc f r) - average_iris_size| → r ≤ t) := by
  have hmapM : ∀ l : List ℕ, (∀ t ∈ l, 11 ≤ (proc f t).h ∧ 11 ≤ (proc f t).w) →
      l.mapM (fun t => do
          let v ← Calibration.iris_size (proc f t)
          pure (t, v)) =
        .ok (l.map (fun t => (t, Calibration.irisQ (proc f t)))) := by
    intro l
    induction l with
    | nil => intro _; rfl
    | cons t ts ih =>
      intro hl
      rw [List.mapM_cons, iris_size_ok (proc f t) (hl t (List.mem_cons_self _ _)).1
        (hl t (List.mem_cons_self _ _)).2, ih (fun u hu => hl u (List.mem_cons_of_mem _ hu))]
      rfl
  cases hT : candidateThresholds.map (fun t => (t, Calibration.irisQ (proc f t))) with
  | nil =>
    exfalso
    have := congrArg List.length hT
    simp [candidateThresholds] at this
  | cons hd0 tl =>
    have hfb0 : find_best_threshold proc f =
        .ok (tl.foldl (fun best q =>
          if |q.2 - average_iris_size| < |best.2 - average_iris_size| then q
          else best) hd0).1 := by
      unfold find_best_threshold
      rw [hmapM candidateThresholds hd, hT]
      rfl
    obtain ⟨res, hres⟩ : ∃ res : ℕ × ℚ,
        tl.foldl (fun best q =>
          if |q.2 - average_iris_size| < |best.2 - average_iris_size| then q
          else best) hd0 = res := ⟨_, rfl⟩
    rw [hres] at hfb0
    have hmem0 : res ∈ hd0 :: tl := by
      rw [← hres]
      exact foldl_pick_mem tl hd0
    rw [← hT] at hmem0
    obtain ⟨t0, ht0, hgt0⟩ := List.mem_map.mp hmem0
    have hfst : t0 = res.1 := by rw [← hgt0]
    have hsnd : Calibration.irisQ (proc f t0) = res.2 := by rw [← hgt0]
    have hpw : (hd0 :: tl).Pairwise (fun a b : ℕ × ℚ => a.1 < b.1) := by
      rw [← hT]
      exact List.Pairwise.map _ (fun a b hab => hab)
        (by decide : candidateThresholds.Pairwise (· < ·))
    refine ⟨res.1, hfb0, ?_, ?_, ?_⟩
    · rw [← hfst]
      exact ht0
    · intro t ht
      have hmemt : (t, Calibration.irisQ (proc f t)) ∈ hd0 :: tl := by
        rw [← hT]
        exact List.mem_map_of_mem _ ht
      have hmin := foldl_pick_min tl hd0 _ hmemt
      rw [hres] at hmin
      rw [← hfst, hsnd]
      exact hmin
    · intro t ht htie
      have hmemt : (t, Calibration.irisQ (proc f t)) ∈ hd0 :: tl := by
        rw [← hT]
        exact List.mem_map_of_mem _ ht
      have htie2 : |((t, Calibration.irisQ (proc f t)) : ℕ × ℚ).2 - average_iris_size| =
          |res.2 - average_iris_size| := by
        show |Calibration.irisQ (proc f t) - average_iris_size| =
          |res.2 - average_iris_size|
        rw [htie, ← hfst, hsnd]
      have hidx := foldl_pick_tie tl hd0 hpw _ hmemt (by rw [hres]; exact htie2)
      rw [hres] at hidx
      exact hidx

/-- The fold of `min` over a list never exceeds its initial value. -/
theorem foldl_min_le_init : ∀ (xs : List ℤ) (a : ℤ), xs.foldl min a ≤ a := by
  intro xs
  induction xs with
  | nil => intro a; exact le_refl a
  | cons y ys ih =>
    intro a
    exact le_trans (ih (min a y)) (min_le_left a y)

/-- The fold of `max` over a list is at least its initial value. -/
theorem le_foldl_max_init : ∀ (xs : List ℤ) (a : ℤ), a ≤ xs.foldl max a := by
  intro xs
  induction xs with
  | nil => intro a; exact le_refl a
  | cons y ys ih =>
    intro a
    exact le_trans (le_max_left a y) (ih (max a y))

/-- `np.min` of a coordinate list never exceeds `np.max` of it. -/
theorem minList_le_maxList : ∀ l : List ℤ, minList l ≤ maxList l := by
  intro l
  cases l with
  | nil => exact le_refl 0
  | cons x xs =>
    exact le_trans (foldl_min_le_init xs x) (le_foldl_max_init xs x)

/-- An in-bounds numpy 2-D slice has the expected dimensions and reads the
source at the offset coordinates. -/
theorem slice_spec (f : Frame) (r0 r1 c0 c1 : ℤ)
    (hr0 : 0 ≤ r0) (hr1 : r0 ≤ r1) (hr2 : r1 ≤ (f.h : ℤ))
    (hc0 : 0 ≤ c0) (hc1 : c0 ≤ c1) (hc2 : c1 ≤ (f.w : ℤ)) :
    ((f.slice r0 r1 c0 c1).h : ℤ) = r1 - r0 ∧
    ((f.slice r0 r1 c0 c1).w : ℤ) = c1 - c0 ∧
    ∀ r c : ℕ, (f.slice r0 r1 c0 c1).pix r c = f.pix (r0 + r).toNat (c0 + c).toNat := by
  have e0 : sliceIdx f.h r0 = r0.toNat := sliceIdx_of_nonneg _ _ hr0 (le_trans hr1 hr2)
  have e1 : sliceIdx f.h r1 = r1.toNat := sliceIdx_of_nonneg _ _ (le_trans hr0 hr1) hr2
  have e2 : sliceIdx f.w c0 = c0.toNat := sliceIdx_of_nonneg _ _ hc0 (le_trans hc1 hc2)
  have e3 : sliceIdx f.w c1 = c1.toNat := sliceIdx_of_nonneg _ _ (le_trans hc0 hc1) hc2
  refine ⟨?_, ?_, ?_⟩
  · show ((sliceIdx f.h r1 - sliceIdx f.h r0 : ℕ) : ℤ) = r1 - r0
    rw [e0, e1]
    omega
  · show ((sliceIdx f.w c1 - sliceIdx f.w c0 : ℕ) : ℤ) = c1 - c0
    rw [e2, e3]
    omega
  · intro r c
    show f.pix (sliceIdx f.h r0 + r) (sliceIdx f.w c0 + c) = _
    rw [e0, e2]
    have : r0.toNat + r = (r0 + (r : ℤ)).toNat := by omega
    rw [this]
    have : c0.toNat + c = (c0 + (c : ℤ)).toNat := by omega
    rw [this]

/-- C4 counterexample: with all six eye landmarks 2-3 pixels from the left
frame border, the margin-expanded bounding box starts at column `-3`, numpy
slicing wraps the negative start to column 17, and the crop comes out empty
(width 0) instead of being the 11-pixel-wide expanded bounding box — the
claim's universal "for every frame and landmark set" fails. -/
theorem isolate_border_counterexample :
    (isolate insideAll C4cframe C4clm LEFT_EYE_POINTS).frame.w = 0 ∧
    ¬ (((isolate insideAll C4cframe C4clm LEFT_EYE_POINTS).frame.w : ℤ) =
      (maxList ((LEFT_EYE_POINTS.map C4clm).map Prod.fst) + 5) -
        (minList ((LEFT_EYE_POINTS.map C4clm).map Prod.fst) - 5)) := by
  with_unfolding_all decide

/-- C4 as amended: whenever the margin-expanded landmark bounding box lies
within the frame, `Eye._isolate` records `origin` as the top-left corner of
the expanded box, crops to exactly that (half-open) box, sets `center` to
`(cropWidth/2, cropHeight/2)`, and every cropped pixel painted by the
polygon fill retains the source intensity while every other cropped pixel
(in particular every pixel strictly outside the polygon) is 255. -/
theorem isolate_in_bounds_spec (insidePoly : ℤ → ℤ → Bool) (frame : Frame)
    (lm : Landmarks) (points : List ℕ)
    (h1 : 0 ≤ minList ((points.map lm).map Prod.fst) - 5)
    (h2 : maxList ((points.map lm).map Prod.fst) + 5 ≤ (frame.w : ℤ))
    (h3 : 0 ≤ minList ((points.map lm).map Prod.snd) - 5)
    (h4 : maxList ((points.map lm).map Prod.snd) + 5 ≤ (frame.h : ℤ)) :
    (isolate insidePoly frame lm points).origin =
      (minList ((points.map lm).map Prod.fst) - 5,
       minList ((points.map lm).map Prod.snd) - 5) ∧
    ((isolate insidePoly frame lm points).frame.w : ℤ) =
      (maxList ((points.map lm).map Prod.fst) + 5) -
        (minList ((points.map lm).map Prod.fst) - 5) ∧
    ((isolate insidePoly frame lm points).frame.h : ℤ) =
      (maxList ((points.map lm).map Prod.snd) + 5) -
        (minList ((points.map lm).map Prod.snd) - 5) ∧
    (isolate insidePoly frame lm points).center =
      (((isolate insidePoly frame lm points).frame.w : ℚ) / 2,
       ((isolate insidePoly frame lm points).frame.h : ℚ) / 2) ∧
    (∀ r c : ℕ, r < (isolate insidePoly frame lm points).frame.h →
      c < (isolate insidePoly frame lm points).frame.w →
      (isolate insidePoly frame lm points).frame.pix r c =
        (if insidePoly (minList ((points.map lm).map Prod.fst) - 5 + c)
            (minList ((points.map lm).map Prod.snd) - 5 + r) then
          frame.pix (minList ((points.map lm).map Prod.snd) - 5 + r).toNat
            (minList ((points.map lm).map Prod.fst) - 5 + c).toNat
        else 255)) := by
  have hxmm := minList_le_maxList ((points.map lm).map Prod.fst)
  have hymm := minList_le_maxList ((points.map lm).map Prod.snd)
  obtain ⟨hsh, hsw, hspix⟩ := slice_spec
    ({ h := frame.h, w := frame.w,
       pix := fun r c => if insidePoly (c : ℤ) (r : ℤ) then frame.pix r c else 255 } : Frame)
    (minList ((points.map lm).map Prod.snd) - 5)
    (maxList ((points.map lm).map Prod.snd) + 5)
    (minList ((points.map lm).map Prod.fst) - 5)
    (maxList ((points.map lm).map Prod.fst) + 5)
    h3 (by omega) h4 h1 (by omega) h2
  refine ⟨rfl, hsw, hsh, rfl, ?_⟩
  intro r c _ _
  have hstep := hspix r c
  have hcol : (minList ((points.map lm).map Prod.fst) - 5 + (c : ℤ)).toNat =
      (minList ((points.map lm).map Prod.fst) - 5).toNat + c := by omega
  have hrow : (minList ((points.map lm).map Prod.snd) - 5 + (r : ℤ)).toNat =
      (minList ((points.map lm).map Prod.snd) - 5).toNat + r := by omega
  calc (isolate insidePoly frame lm points).frame.pix r c
      = (if insidePoly ((minList ((points.map lm).map Prod.fst) - 5 + (c : ℤ)).toNat : ℤ)
            ((minList ((points.map lm).map Prod.snd) - 5 + (r : ℤ)).toNat : ℤ) then
          frame.pix (minList ((points.map lm).map Prod.snd) - 5 + (r : ℤ)).toNat
            (minList ((points.map lm).map Prod.fst) - 5 + (c : ℤ)).toNat
        else 255) := hstep
    _ = _ := by
        rw [Int.toNat_of_nonneg (by omega :
            (0 : ℤ) ≤ minList ((points.map lm).map Prod.fst) - 5 + (c : ℤ)),
          Int.toNat_of_nonneg (by omega :
            (0 : ℤ) ≤ minList ((points.map lm).map Prod.snd) - 5 + (r : ℤ))]

/-- Witness for C4's amended statement: a 30×30 frame with the landmark box
(x 10-16, y 10-15); origin is (5,5), the crop is 16×15, and two sampled
pixels show fill-retained source intensity and outside-255. -/
theorem isolate_in_bounds_spec_witness :
    (isolate C4inside C4frame C4lm LEFT_EYE_POINTS).origin = (5, 5) ∧
    (isolate C4inside C4frame C4lm LEFT_EYE_POINTS).frame.pix 6 6 = 22 ∧
    (isolate C4inside C4frame C4lm LEFT_EYE_POINTS).frame.pix 0 0 = 255 := by
  have h := isolate_in_bounds_spec C4inside C4frame C4lm LEFT_EYE_POINTS
    (by with_unfolding_all decide) (by with_unfolding_all decide)
    (by with_unfolding_all decide) (by with_unfolding_all decide)
  refine ⟨?_, ?_, ?_⟩
  · rw [h.1]
    with_unfolding_all decide
  · rw [h.2.2.2.2 6 6 (by with_unfolding_all decide) (by with_unfolding_all decide)]
    with_unfolding_all decide
  · rw [h.2.2.2.2 0 0 (by with_unfolding_all decide) (by with_unfolding_all decide)]
    with_unfolding_all decide

/-- C3: `Pupil.detect_iris` sorts the contours ascending by area and selects
the second-largest (the element at position `length - 2` of the stable
ascending sort, whose area is the second-largest area); the centroid is
`(m10/m00, m01/m00)` truncated toward zero; the centroid is undefined
(`None`) when fewer than two contours exist or the selected contour has zero
`m00`, and the surrounding `except (IndexError, ZeroDivisionError)` means no
fault escapes in those cases (the embedding is total). -/
theorem detect_iris_second_largest (cs : List Contour) :
    (cs.length < 2 → detect_iris cs = none) ∧
    (2 ≤ cs.length →
      ∃ c, c ∈ cs ∧ c.area = secondLargestArea cs ∧
        (c.m00 = 0 → detect_iris cs = none) ∧
        (c.m00 ≠ 0 → detect_iris cs =
          some (pyTrunc (c.m10 / c.m00), pyTrunc (c.m01 / c.m00)))) := by
  have hlen : (cs.mergeSort (fun a b => decide (a.area ≤ b.area))).length = cs.length :=
    List.length_mergeSort cs
  constructor
  · intro h
    have hlt : (cs.mergeSort (fun a b => decide (a.area ≤ b.area))).length < 2 := by
      rw [hlen]; exact h
    unfold detect_iris detect_iris_body
    rw [dif_pos hlt]
  · intro h2
    have hnlt : ¬ (cs.mergeSort (fun a b => decide (a.area ≤ b.area))).length < 2 := by
      rw [hlen]; omega
    have hidx : (cs.mergeSort (fun a b => decide (a.area ≤ b.area))).length - 2 <
        (cs.mergeSort (fun a b => decide (a.area ≤ b.area))).length := by omega
    refine ⟨(cs.mergeSort (fun a b => decide (a.area ≤ b.area))).get
      ⟨(cs.mergeSort (fun a b => decide (a.area ≤ b.area))).length - 2, hidx⟩,
      ?_, ?_, ?_, ?_⟩
    · exact List.mem_mergeSort.mp (List.get_mem _ _ _)
    · have hmap : ((cs.mergeSort (fun a b => decide (a.area ≤ b.area))).map Contour.area) =
          (cs.map Contour.area).mergeSort (fun a b => decide (a ≤ b)) :=
        List.map_mergeSort (fun a _ b _ => rfl)
      unfold secondLargestArea
      rw [← hmap]
      have hidx2 : (cs.mergeSort (fun a b => decide (a.area ≤ b.area))).length - 2 <
          ((cs.mergeSort (fun a b => decide (a.area ≤ b.area))).map Contour.area).length := by
        rw [List.length_map]
        omega
      rw [show cs.length - 2 =
        (cs.mergeSort (fun a b => decide (a.area ≤ b.area))).length - 2 from by rw [hlen]]
      rw [List.getD_eq_getElem?_getD, List.getElem?_eq_getElem hidx2]
      simp
    · intro hz
      unfold detect_iris detect_iris_body
      rw [dif_neg hnlt]
      simp only [hz]
      simp
    · intro hz
      unfold detect_iris detect_iris_body
      rw [dif_neg hnlt]
      rw [if_neg hz]

/-- Witness for C3 on a concrete two-contour list. -/
theorem detect_iris_second_largest_witness :
    2 ≤ ([⟨40, 40, 80, 120⟩, ⟨20, 10, 25, 31⟩] : List Contour).length ∧
    (∃ c, c ∈ ([⟨40, 40, 80, 120⟩, ⟨20, 10, 25, 31⟩] : List Contour) ∧
      c.area = secondLargestArea [⟨40, 40, 80, 120⟩, ⟨20, 10, 25, 31⟩] ∧
      (c.m00 = 0 → detect_iris [⟨40, 40, 80, 120⟩, ⟨20, 10, 25, 31⟩] = none) ∧
      (c.m00 ≠ 0 → detect_iris [⟨40, 40, 80, 120⟩, ⟨20, 10, 25, 31⟩] =
        some (pyTrunc (c.m10 / c.m00), pyTrunc (c.m01 / c.m00)))) :=
  ⟨by decide,
   (detect_iris_second_largest [⟨40, 40, 80, 120⟩, ⟨20, 10, 25, 31⟩]).2 (by decide)⟩

/-- Witness for C2's amended statement: on the all-black 11×11 patch every
candidate gives iris fraction 1, so the tie-break selects the lowest
candidate, 5. -/
theorem find_best_threshold_argmin_witness :
    find_best_threshold procId frameBlack = .ok 5 ∧
    (∃ r, find_best_threshold procId frameBlack = .ok r ∧ r ∈ candidateThresholds ∧
      (∀ t ∈ candidateThresholds,
        |Calibration.irisQ (procId frameBlack r) - average_iris_size| ≤
          |Calibration.irisQ (procId frameBlack t) - average_iris_size|) ∧
      (∀ t ∈ candidateThresholds,
        |Calibration.irisQ (procId frameBlack t) - average_iris_size| =
          |Calibration.irisQ (procId frameBlack r) - average_iris_size| → r ≤ t)) :=
  ⟨by with_unfolding_all decide,
   find_best_threshold_argmin procId frameBlack (by decide)⟩


/-- C1 (code bug): a frame/landmark input whose left eye has coinciding lid
midpoints (blink ratio `None`) but whose pupils are both located; the engine
state is reached through the embedded `Eye` construction, and `is_blinking`
raises `TypeError` (from `None + ⟨number or None⟩`) instead of propagating the
undefined value as the spec requires. -/
theorem is_blinking_faults_on_undefined_blink_ratio :
    C1state = .ok C1expected ∧
    pupils_located C1expected = true ∧
    C1expected.eye_left.map EyeM.blinking = some none ∧
    is_blinking C1expected = .error .typeError := by
  with_unfolding_all decide

/-- C10: the divisions in `horizontal_ratio`/`vertical_ratio` are unguarded.
With calibration complete, landmarks whose six left-eye points share one
x-coordinate give an isolated eye region exactly 10 pixels wide
(`center.x = 5`), the pupils are located, and `horizontal_ratio` raises
`ZeroDivisionError` (denominator `2*5 - 10 = 0`) instead of yielding an
undefined value; dually for a shared y-coordinate and `vertical_ratio`. -/
theorem ratio_division_unguarded :
    C10stateH = .ok C10expectedH ∧
    pupils_located C10expectedH = true ∧
    (isolate insideAll C10frame C10lmH LEFT_EYE_POINTS).frame.w = 10 ∧
    horizontal_ratio C10expectedH = .error .zeroDivisionError ∧
    C10stateV = .ok C10expectedV ∧
    pupils_located C10expectedV = true ∧
    (isolate insideAll C10frame C10lmV LEFT_EYE_POINTS).frame.h = 10 ∧
    vertical_ratio C10expectedV = .error .zeroDivisionError := by
  with_unfolding_all decide

end GazeSpec
